import Mathlib

/-!
Verification development for the `file_scanner.py` directory-tree scanner.

The scanner is embedded shallowly: filesystem behaviour is abstracted into a
structure `FS` of (possibly failing) primitive operations, Python exceptions
become an explicit `PyExc` sum threaded through `Except`, and the recursive
`create_entry` procedure is given an explicit fuel argument whose bound is
derived from `MAX_DEPTH` (the Python recursion terminates because every
recursive call increments `depth` and the `depth` tests cut traversal off at
`MAX_DEPTH`).  Output dictionaries become the `Entry` tree with optional
fields, absence of a JSON key being `none` / `false`.
-/

namespace FileScanner

/-- Result of `path.stat()`: the fields the scanner reads. -/
structure Stat where
  st_size : Nat
  st_mtime : Int
  st_ctime : Int
deriving Repr, DecidableEq

/-- Python exceptions as they matter to the scanner's `except` clauses:
`PermissionError`, other `OSError`, and any other exception. -/
inductive PyExc where
  | permissionError (m : String)
  | osError (m : String)
  | other (m : String)
deriving Repr, DecidableEq

/-- The message `str(e)` of an exception. -/
def PyExc.msg : PyExc → String
  | .permissionError m => m
  | .osError m => m
  | .other m => m

/-- The non-recursive fields of an output dictionary.  A `none` / `false`
field models absence of the corresponding JSON key (the Python code only
ever sets the boolean keys to `True`). -/
structure EntryData where
  name : Option String := none
  path : Option String := none
  type : Option String := none
  size : Option Nat := none
  target : Option String := none
  cycle_detected : Bool := false
  max_depth_reached : Bool := false
  last_modified : Option Int := none
  creation_time : Option Int := none
  stat_error : Option String := none
  permission_error : Bool := false
  error : Option String := none
  hidden : Bool := false
  excluded : Bool := false
  status : Option String := none
  message : Option String := none
  parent_exists : Option Bool := none
deriving Repr, DecidableEq

/-- An output document: non-recursive data plus the optional `children` key. -/
inductive Entry where
  | mk (data : EntryData) (children : Option (List Entry)) : Entry

/-- The non-recursive fields of an entry. -/
def Entry.data : Entry → EntryData
  | .mk d _ => d

/-- The `children` key of an entry (`none` when the key is absent). -/
def Entry.children : Entry → Option (List Entry)
  | .mk _ c => c

/-- Abstract filesystem supplying the primitive operations the scanner calls.
Each field models one Python call site, with its possible exceptions. -/
structure FS where
  /-- `os.path.exists` / `Path.exists`. -/
  existsPath : String → Bool
  /-- Top-level `Path(...)`/`abspath`/`expanduser`/`resolve` chain
  (lines 44-53); `Except.error` is the exception message. -/
  resolveInput : String → Except String String
  /-- `path.resolve()` inside `create_entry` (line 120); the surrounding
  handler ignores the exception's content, so failure is collapsed to
  `none`. -/
  resolve : String → Option String
  /-- `path.is_file()` / `path.is_dir()` / `path.is_symlink()`
  (lines 136-138), queried together. -/
  classify : String → Except PyExc (Bool × Bool × Bool)
  /-- `path.stat()`. -/
  statResult : String → Except PyExc Stat
  /-- `path.iterdir()`, as the list of full child path strings. -/
  listDir : String → Except PyExc (List String)

/-- List of directories to exclude from scanning (`EXCLUDED_DIRS`). -/
def EXCLUDED_DIRS : List String :=
  ["/proc", "/sys", "/dev", "/run", "/tmp", "/var/cache",
   "node_modules", ".git", "__pycache__"]

/-- `MAX_DEPTH`. -/
def MAX_DEPTH : Nat := 5

/-- Splitting a character list at a separator, with Python `str.split`
semantics (`''.split(sep) = ['']`, leading separator yields a leading
empty part).  Implemented structurally so that the kernel can evaluate
it. -/
def splitParts (sep : Char) : List Char → List (List Char)
  | [] => [[]]
  | c :: cs =>
    match splitParts sep cs, decide (c = sep) with
    | r, true => [] :: r
    | [], false => [[c]]
    | h :: t, false => (c :: h) :: t

/-- `path_str.split(os.sep)` with `os.sep = "/"` on POSIX. -/
def pySplit (s : String) : List String :=
  (splitParts '/' s.data).map (fun l => String.mk l)

/-- `is_excluded_path`: split the path on `os.sep` and test whether any
excluded name occurs exactly among the parts. -/
def is_excluded_path (path : String) : Bool :=
  let path_parts := pySplit path
  EXCLUDED_DIRS.any (fun excluded => path_parts.any (fun part => part = excluded))

/-- `Path(p).name`: the final path component (empty for the root `/`). -/
def pathName (p : String) : String :=
  if p = "/" then ""
  else (((pySplit p).filter (fun s => s ≠ "")).getLastD "")

/-- `os.path.basename`. -/
def basename (p : String) : String :=
  (pySplit p).getLastD ""

/-- Join path parts with `/` separators. -/
def interSlash : List String → String
  | [] => ""
  | [x] => x
  | x :: xs => x ++ "/" ++ interSlash xs

/-- `Path(p).parent` for an absolute path. -/
def parentPath (p : String) : String :=
  match (pySplit p).filter (fun s => s ≠ "") with
  | [] => "/"
  | [_] => "/"
  | parts => "/" ++ interSlash parts.dropLast

/-- `name.startswith('.')`. -/
def startsWithDot (s : String) : Bool :=
  match s.data with
  | [] => false
  | c :: _ => decide (c = '.')

/-- The entry returned when `depth > MAX_DEPTH` (lines 105-111). -/
def maxDepthEntry (p : String) : Entry :=
  .mk { name := some (pathName p), path := some p, type := some "directory",
        max_depth_reached := true } (some [])

/-- The cycle entry (lines 122-128): kind `symlink`, canonical `target`,
`cycle_detected`, and no `children` key. -/
def cycleEntry (p real_path : String) : Entry :=
  .mk { name := some (pathName p), path := some p, type := some "symlink",
        target := some real_path, cycle_detected := true } none

/-- The entry returned when type classification raises `OSError` or
`PermissionError` (lines 141-146). -/
def unknownEntry (p m : String) : Entry :=
  .mk { name := some (pathName p), path := some p, type := some "unknown",
        error := some m } none

/-- The entry produced by the outer handler of `create_entry`
(lines 209-214): kind `error` with the diagnostic message. -/
def errorEntry (p m : String) : Entry :=
  .mk { name := some (pathName p), path := some p, type := some "error",
        error := some m } none

/-- A `file` entry (lines 149-162). -/
def fileEntry (p : String) (sz : Nat) (se : Option String) : Entry :=
  .mk { name := some (pathName p), path := some p, type := some "file",
        size := some sz, stat_error := se } none

/-- A fully expanded `directory` entry (lines 149-153, 165-196). -/
def dirEntry (p : String) (lm ct : Option Int) (se : Option String)
    (cs : List Entry) : Entry :=
  .mk { name := some (pathName p), path := some p, type := some "directory",
        last_modified := lm, creation_time := ct, stat_error := se } (some cs)

/-- A `directory` entry whose listing raised `PermissionError`
(lines 197-200). -/
def dirPermEntry (p : String) (lm ct : Option Int) (se : Option String) :
    Entry :=
  .mk { name := some (pathName p), path := some p, type := some "directory",
        last_modified := lm, creation_time := ct, stat_error := se,
        permission_error := true } (some [])

/-- A `directory` entry whose listing raised a non-permission `OSError`
(lines 201-204). -/
def dirOsErrEntry (p : String) (lm ct : Option Int) (se : Option String)
    (m : String) : Entry :=
  .mk { name := some (pathName p), path := some p, type := some "directory",
        last_modified := lm, creation_time := ct, stat_error := se,
        error := some m } (some [])

/-- A `directory` entry reached at `depth = MAX_DEPTH`: the contents are not
enumerated (guard at line 169), `children` stays `[]`, and the stat block at
lines 171-176 is skipped. -/
def shallowDirEntry (p : String) : Entry :=
  .mk { name := some (pathName p), path := some p,
        type := some "directory" } (some [])

/-- The entry for a path that is neither file nor directory
(lines 149-153 with no extra branch taken). -/
def plainEntry (p : String) (is_symlink : Bool) : Entry :=
  .mk { name := some (pathName p), path := some p,
        type := some (if is_symlink then "symlink" else "unknown") } none

/-- `child_entry["hidden"] = True` (line 191). -/
def setHidden : Entry → Entry
  | .mk d c => .mk { d with hidden := true } c

/-- Mark the child entry hidden when its name starts with `.`
(lines 183, 190-191). -/
def markHidden (childPath : String) (e : Entry) : Entry :=
  if startsWithDot (pathName childPath) then setHidden e else e

/-- `x["name"]` for sorting (always present on entries built by
`create_entry`). -/
def nameD (e : Entry) : String := e.data.name.getD ""

/-- First component of the Python sort key:
`0 if x["type"] == "directory" else 1`. -/
def rank (e : Entry) : Nat :=
  if e.data.type.getD "" = "directory" then 0 else 1

/-- Lexicographic comparison of character lists by code point: exactly
Python's `str` ordering (a strict prefix is smaller). -/
def charListLE : List Char → List Char → Bool
  | [], _ => true
  | _ :: _, [] => false
  | c :: cs, d :: ds =>
    if c.toNat < d.toNat then true
    else if d.toNat < c.toNat then false
    else charListLE cs ds

/-- Python `str` comparison `a <= b` (by code point). -/
def strLE (a b : String) : Bool := charListLE a.data b.data

theorem charListLE_total : ∀ x y : List Char,
    charListLE x y = true ∨ charListLE y x = true := by
  intro x
  induction x with
  | nil => intro y; exact Or.inl rfl
  | cons c cs ih =>
    intro y
    cases y with
    | nil => exact Or.inr rfl
    | cons d ds =>
      simp only [charListLE]
      rcases Nat.lt_trichotomy c.toNat d.toNat with h | h | h
      · simp [h]
      · simp only [h, Nat.lt_irrefl, if_false]
        exact ih ds
      · simp [h, Nat.lt_asymm h]

theorem charListLE_trans : ∀ x y z : List Char,
    charListLE x y = true → charListLE y z = true → charListLE x z = true := by
  intro x
  induction x with
  | nil => intro y z _ _; rfl
  | cons c cs ih =>
    intro y z hxy hyz
    cases y with
    | nil => simp [charListLE] at hxy
    | cons d ds =>
      cases z with
      | nil => simp [charListLE] at hyz
      | cons e es =>
        simp only [charListLE] at hxy hyz ⊢
        rcases Nat.lt_trichotomy c.toNat d.toNat with h1 | h1 | h1
        · rcases Nat.lt_trichotomy d.toNat e.toNat with h2 | h2 | h2
          · simp [Nat.lt_trans h1 h2]
          · simp [h2 ▸ h1]
          · simp [h2, Nat.lt_asymm h2] at hyz
        · rcases Nat.lt_trichotomy d.toNat e.toNat with h2 | h2 | h2
          · simp [h1 ▸ h2]
          · simp only [h1, h2, Nat.lt_irrefl, if_false] at hxy hyz ⊢
            exact ih ds es hxy hyz
          · simp [h2, Nat.lt_asymm h2] at hyz
        · simp [h1, Nat.lt_asymm h1] at hxy

/-- The total preorder under which Python's stable `sorted` (line 195)
orders children: lexicographically by the key
`(0 if type == "directory" else 1, name)`, string comparison being by
code point. -/
def pyLE (a b : Entry) : Prop :=
  rank a < rank b ∨ (rank a = rank b ∧ strLE (nameD a) (nameD b) = true)

instance : DecidableRel pyLE := fun a b => by
  unfold pyLE
  exact inferInstance

instance : IsTotal Entry pyLE where
  total a b := by
    unfold pyLE
    rcases Nat.lt_trichotomy (rank a) (rank b) with h | h | h
    · exact Or.inl (Or.inl h)
    · rcases charListLE_total (nameD a).data (nameD b).data with h' | h'
      · exact Or.inl (Or.inr ⟨h, h'⟩)
      · exact Or.inr (Or.inr ⟨h.symm, h'⟩)
    · exact Or.inr (Or.inl h)

instance : IsTrans Entry pyLE where
  trans a b c hab hbc := by
    unfold pyLE at *
    rcases hab with h1 | ⟨h1, h1'⟩
    · rcases hbc with h2 | ⟨h2, h2'⟩
      · exact Or.inl (h1.trans h2)
      · exact Or.inl (h2 ▸ h1)
    · rcases hbc with h2 | ⟨h2, h2'⟩
      · exact Or.inl (h1 ▸ h2)
      · exact Or.inr ⟨h1.trans h2, charListLE_trans _ _ _ h1' h2'⟩


/-- `sorted(children, key=lambda x: (0 if x["type"] == "directory" else 1,
x["name"]))`: Python's `sorted` is the stable sort by this key, which is
exactly insertion sort under the total preorder `pyLE`. -/
def pySorted (cs : List Entry) : List Entry :=
  List.insertionSort pyLE cs

/-- One step of `create_entry` (lines 100-214), parametrised by the
procedure `recurse` used to process the list of children (the loop at
lines 179-192 plus its visited-set threading).  `recurse` returning `none`
signals fuel exhaustion in the fuel-indexed instantiation below; every
Python control path maps to a `some` result. -/
def createEntryStep (fs : FS)
    (recurse : List String → Nat → List String → Option (List Entry × List String))
    (path : String) (depth : Nat) (visited : List String) :
    Option (Option Entry × List String) :=
  if depth > MAX_DEPTH then
    some (some (maxDepthEntry path), visited)
  else if is_excluded_path path then
    some (none, visited)
  else
    match fs.resolve path with
    | none => some (none, visited)
    | some real_path =>
      if real_path ∈ visited then
        some (some (cycleEntry path real_path), visited)
      else
        match fs.classify path with
        | .error (.other m) =>
            some (some (errorEntry path m), real_path :: visited)
        | .error (.permissionError m) =>
            some (some (unknownEntry path m), real_path :: visited)
        | .error (.osError m) =>
            some (some (unknownEntry path m), real_path :: visited)
        | .ok (is_file, is_dir, is_symlink) =>
          if is_file then
            match fs.statResult path with
            | .ok st =>
                some (some (fileEntry path st.st_size none), real_path :: visited)
            | .error e =>
                some (some (fileEntry path 0 (some e.msg)), real_path :: visited)
          else if is_dir then
            if depth < MAX_DEPTH then
              match fs.statResult path with
              | .ok st =>
                match fs.listDir path with
                | .ok kids =>
                  match recurse kids (depth + 1) (real_path :: visited) with
                  | none => none
                  | some (children, visited') =>
                      some (some (dirEntry path (some st.st_mtime)
                        (some st.st_ctime) none (pySorted children)), visited')
                | .error (.permissionError _) =>
                    some (some (dirPermEntry path (some st.st_mtime)
                      (some st.st_ctime) none), real_path :: visited)
                | .error (.osError m) =>
                    some (some (dirOsErrEntry path (some st.st_mtime)
                      (some st.st_ctime) none m), real_path :: visited)
                | .error (.other m) =>
                    some (some (errorEntry path m), real_path :: visited)
              | .error es =>
                match fs.listDir path with
                | .ok kids =>
                  match recurse kids (depth + 1) (real_path :: visited) with
                  | none => none
                  | some (children, visited') =>
                      some (some (dirEntry path none none (some es.msg)
                        (pySorted children)), visited')
                | .error (.permissionError _) =>
                    some (some (dirPermEntry path none none (some es.msg)),
                      real_path :: visited)
                | .error (.osError m) =>
                    some (some (dirOsErrEntry path none none (some es.msg) m),
                      real_path :: visited)
                | .error (.other m) =>
                    some (some (errorEntry path m), real_path :: visited)
            else
              some (some (shallowDirEntry path), real_path :: visited)
          else
            some (some (plainEntry path is_symlink), real_path :: visited)

/-- The loop over `path.iterdir()` (lines 179-192), parametrised by the
procedure `ce` that scans one child: process each child at the given depth,
threading the visited set, skipping `None` results and marking hidden
children.  `none` propagates fuel exhaustion of `ce`. -/
def processChildrenF
    (ce : String → Nat → List String → Option (Option Entry × List String)) :
    List String → Nat → List String → Option (List Entry × List String)
  | [], _, visited => some ([], visited)
  | child :: rest, depth, visited =>
    match ce child depth visited with
    | none => none
    | some (child_entry, v1) =>
      match processChildrenF ce rest depth v1 with
      | none => none
      | some (others, v2) =>
        match child_entry with
        | none => some (others, v2)
        | some centry => some (markHidden child centry :: others, v2)

/-- Fuel-indexed `create_entry`.  The Python recursion needs at most
`MAX_DEPTH + 1 - depth` nested frames (every recursive call increments
`depth`, recursion happens only below `MAX_DEPTH`), so a result of `none`
(fuel ran out) never occurs for sufficient fuel; this is proved below. -/
def createEntryF (fs : FS) : Nat → String → Nat → List String →
    Option (Option Entry × List String)
  | 0, _, _, _ => none
  | fuel + 1, path, depth, visited =>
      createEntryStep fs (processChildrenF (createEntryF fs fuel))
        path depth visited

/-- The fuel that suffices for a call at a given depth. -/
def scanFuel (depth : Nat) : Nat := max 1 (MAX_DEPTH + 1 - depth)

/-- `create_entry(path, depth)` with the scan's visited set made explicit:
returns the optional entry and the updated visited set. -/
def create_entry (fs : FS) (path : String) (depth : Nat)
    (visited : List String) : Option Entry × List String :=
  (createEntryF fs (scanFuel depth) path depth visited).getD (none, visited)

/-- The children loop at its natural fuel. -/
def process_children (fs : FS) (kids : List String) (depth : Nat)
    (visited : List String) : List Entry × List String :=
  (processChildrenF (createEntryF fs (scanFuel depth)) kids depth visited).getD
    ([], visited)

/-- The Replit special case (lines 37-39): a root scan is redirected to the
workspace directory when it exists. -/
def effectiveInput (fs : FS) (input : String) : String :=
  if input = "/" && fs.existsPath "/home/runner/workspace" then
    "/home/runner/workspace"
  else input

/-- `scan_directory` (lines 32-229): top-level path fixing and resolution,
the not-found and excluded-root documents, and the tree scan.  Every Python
failure path ends in a returned document, so the embedding is a total
function into `Entry` (documents are dictionaries like entries). -/
def scan_directory (fs : FS) (input : String) : Entry :=
  let dir_path := effectiveInput fs input
  match fs.resolveInput dir_path with
  | .error m =>
      .mk { name := some (if dir_path = "" then "unknown" else basename dir_path),
            path := some dir_path, type := some "directory",
            error := some ("Invalid path: " ++ m),
            status := some "error" } (some [])
  | .ok resolved =>
    if !fs.existsPath resolved then
      .mk { name := some (pathName resolved), path := some resolved,
            type := some "directory",
            error := some ("Directory not found: " ++ resolved),
            parent_exists := some (fs.existsPath (parentPath resolved)),
            status := some "not_found" } (some [])
    else if is_excluded_path resolved then
      .mk { name := some (pathName resolved), path := some resolved,
            type := some "directory", excluded := true,
            status := some "excluded",
            message := some "This directory is excluded for security reasons" }
        (some [])
    else
      match (create_entry fs resolved 0 []).1 with
      | some e => e
      | none => .mk { error := some "Failed to scan directory" } none


theorem scanFuel_pos (d : Nat) : 1 ≤ scanFuel d := by
  simp [scanFuel]

theorem scanFuel_eq_succ (d : Nat) : scanFuel d = (scanFuel d - 1) + 1 := by
  have := scanFuel_pos d
  omega

theorem scanFuel_sub (d : Nat) (h : d < MAX_DEPTH) :
    scanFuel d - 1 = scanFuel (d + 1) := by
  simp only [scanFuel, MAX_DEPTH] at *
  omega

theorem createEntryStep_congr (fs : FS)
    (r₁ r₂ : List String → Nat → List String → Option (List Entry × List String))
    (p : String) (d : Nat) (v : List String)
    (h : d < MAX_DEPTH → ∀ kids v', r₁ kids (d + 1) v' = r₂ kids (d + 1) v') :
    createEntryStep fs r₁ p d v = createEntryStep fs r₂ p d v := by
  unfold createEntryStep
  repeat' first
    | rfl
    | (rw [h (by omega)])
    | split

theorem createEntryStep_none (fs : FS)
    (r : List String → Nat → List String → Option (List Entry × List String))
    (p : String) (d : Nat) (v : List String)
    (h0 : createEntryStep fs r p d v = none) :
    d < MAX_DEPTH ∧ ∃ kids v', r kids (d + 1) v' = none := by
  unfold createEntryStep at h0
  repeat' split at h0
  all_goals first
    | (exact ⟨by omega, _, _, by assumption⟩)
    | (cases h0)

theorem createEntryStep_isSome (fs : FS)
    (r : List String → Nat → List String → Option (List Entry × List String))
    (p : String) (d : Nat) (v : List String)
    (h : d < MAX_DEPTH → ∀ kids v', (r kids (d + 1) v').isSome = true) :
    (createEntryStep fs r p d v).isSome = true := by
  cases hs : createEntryStep fs r p d v with
  | some x => rfl
  | none =>
    obtain ⟨hd, kids, v', hn⟩ := createEntryStep_none fs r p d v hs
    have h2 := h hd kids v'
    rw [hn] at h2
    cases h2


theorem scanFuel_succ_le {d g : Nat} (hle : scanFuel d ≤ g + 1)
    (hd : d < MAX_DEPTH) : scanFuel (d + 1) ≤ g := by
  simp only [scanFuel, MAX_DEPTH] at *
  omega

/-- Any fuel at least `scanFuel d` computes the same result as the canonical
fuel, and that result is never the out-of-fuel sentinel: the scanner's
recursion terminates within the bound fixed by `MAX_DEPTH`. -/
theorem fuel_spec (fs : FS) : ∀ f,
    (∀ p d v, scanFuel d ≤ f →
      createEntryF fs f p d v = createEntryF fs (scanFuel d) p d v ∧
      (createEntryF fs (scanFuel d) p d v).isSome = true) ∧
    (∀ kids d v, scanFuel d ≤ f →
      processChildrenF (createEntryF fs f) kids d v
        = processChildrenF (createEntryF fs (scanFuel d)) kids d v ∧
      (processChildrenF (createEntryF fs (scanFuel d)) kids d v).isSome = true) := by
  intro f
  induction f using Nat.strong_induction_on with
  | _ f IH =>
    have hP : ∀ p d v, scanFuel d ≤ f →
        createEntryF fs f p d v = createEntryF fs (scanFuel d) p d v ∧
        (createEntryF fs (scanFuel d) p d v).isSome = true := by
      intro p d v hle
      have hf1 : 1 ≤ f := le_trans (scanFuel_pos d) hle
      obtain ⟨g, rfl⟩ : ∃ g, f = g + 1 := ⟨f - 1, by omega⟩
      constructor
      · conv_rhs => rw [scanFuel_eq_succ d]
        show createEntryStep fs (processChildrenF (createEntryF fs g)) p d v =
          createEntryStep fs
            (processChildrenF (createEntryF fs (scanFuel d - 1))) p d v
        apply createEntryStep_congr
        intro hd kids v'
        rw [scanFuel_sub d hd]
        have hg : scanFuel (d + 1) ≤ g := scanFuel_succ_le hle hd
        exact ((IH g (by omega)).2 kids (d + 1) v' hg).1
      · conv_lhs => rw [scanFuel_eq_succ d]
        show (createEntryStep fs
          (processChildrenF (createEntryF fs (scanFuel d - 1))) p d v).isSome = true
        apply createEntryStep_isSome
        intro hd kids v'
        rw [scanFuel_sub d hd]
        have hlt : scanFuel (d + 1) < g + 1 := by
          have h1 := scanFuel_sub d hd
          have h2 := scanFuel_pos d
          omega
        exact ((IH (scanFuel (d + 1)) hlt).2 kids (d + 1) v' (le_refl _)).2
    refine ⟨hP, ?_⟩
    intro kids
    induction kids with
    | nil => intro d v _; exact ⟨rfl, rfl⟩
    | cons child rest ihrest =>
      intro d v hle
      obtain ⟨hceq, hcs⟩ := hP child d v hle
      obtain ⟨⟨centry, v1⟩, hx⟩ := Option.isSome_iff_exists.mp hcs
      obtain ⟨hreq, hrs⟩ := ihrest d v1 hle
      obtain ⟨⟨os, v2⟩, hy⟩ := Option.isSome_iff_exists.mp hrs
      constructor
      · simp only [processChildrenF, hceq, hx, hreq, hy]
      · simp only [processChildrenF, hx, hy]
        cases centry <;> rfl


/-- Sufficient fuel always yields `some` of the fuel-free wrapper's value. -/
theorem createEntryF_eq_create_entry (fs : FS) (p : String) (d : Nat)
    (v : List String) (f : Nat) (hle : scanFuel d ≤ f) :
    createEntryF fs f p d v = some (create_entry fs p d v) := by
  obtain ⟨heq, hs⟩ := (fuel_spec fs f).1 p d v hle
  obtain ⟨x, hx⟩ := Option.isSome_iff_exists.mp hs
  rw [heq, hx, create_entry, hx]
  rfl

theorem processChildrenF_eq_process_children (fs : FS) (kids : List String)
    (d : Nat) (v : List String) (f : Nat) (hle : scanFuel d ≤ f) :
    processChildrenF (createEntryF fs f) kids d v
      = some (process_children fs kids d v) := by
  obtain ⟨heq, hs⟩ := (fuel_spec fs f).2 kids d v hle
  obtain ⟨x, hx⟩ := Option.isSome_iff_exists.mp hs
  rw [heq, hx, process_children, hx]
  rfl

/-- `create_entry` unfolded to one `createEntryStep`. -/
theorem create_entry_def (fs : FS) (p : String) (d : Nat) (v : List String) :
    create_entry fs p d v
      = (createEntryStep fs
          (processChildrenF (createEntryF fs (scanFuel d - 1))) p d v).getD
          (none, v) := by
  rw [create_entry]
  conv_lhs => rw [scanFuel_eq_succ d]
  rfl

/-- The cycle branch (lines 121-128): a canonical path already in the
visited set yields the cycle entry, the path is not re-entered, and the
visited set is unchanged. -/
theorem create_entry_cycle (fs : FS) (p : String) (d : Nat) (v : List String)
    (real_path : String) (hd : d ≤ MAX_DEPTH)
    (hex : is_excluded_path p = false)
    (hres : fs.resolve p = some real_path) (hmem : real_path ∈ v) :
    create_entry fs p d v = (some (cycleEntry p real_path), v) := by
  rw [create_entry_def]
  unfold createEntryStep
  simp [show ¬ d > MAX_DEPTH by omega, hex, hres, hmem]

/-- The exclusion branch (lines 113-115): an excluded path reached below
the depth limit contributes nothing and leaves the visited set unchanged. -/
theorem create_entry_excluded (fs : FS) (p : String) (d : Nat)
    (v : List String) (hd : d ≤ MAX_DEPTH)
    (hex : is_excluded_path p = true) :
    create_entry fs p d v = (none, v) := by
  rw [create_entry_def]
  unfold createEntryStep
  simp [show ¬ d > MAX_DEPTH by omega, hex]

/-- The resolution-failure branch (lines 130-132): the path contributes
nothing. -/
theorem create_entry_resolve_fail (fs : FS) (p : String) (d : Nat)
    (v : List String) (hd : d ≤ MAX_DEPTH)
    (hex : is_excluded_path p = false) (hres : fs.resolve p = none) :
    create_entry fs p d v = (none, v) := by
  rw [create_entry_def]
  unfold createEntryStep
  simp [show ¬ d > MAX_DEPTH by omega, hex, hres]

/-- The `depth > MAX_DEPTH` branch (lines 103-111). -/
theorem create_entry_maxdepth (fs : FS) (p : String) (d : Nat)
    (v : List String) (hd : d > MAX_DEPTH) :
    create_entry fs p d v = (some (maxDepthEntry p), v) := by
  rw [create_entry_def]
  unfold createEntryStep
  simp [hd]

/-- A non-`OSError` exception raised while classifying the path is caught
by the outer handler of `create_entry` (lines 207-214) and converted into
an `error`-kind entry at this path's own frame. -/
theorem create_entry_classify_other (fs : FS) (p : String) (d : Nat)
    (v : List String) (real_path m : String) (hd : d ≤ MAX_DEPTH)
    (hex : is_excluded_path p = false)
    (hres : fs.resolve p = some real_path) (hmem : real_path ∉ v)
    (hcl : fs.classify p = .error (.other m)) :
    create_entry fs p d v = (some (errorEntry p m), real_path :: v) := by
  rw [create_entry_def]
  unfold createEntryStep
  simp [show ¬ d > MAX_DEPTH by omega, hex, hres, hmem, hcl]

/-- A directory whose listing raises `PermissionError` (lines 197-200)
still yields a directory entry, with empty children and the
`permission_error` annotation. -/
theorem create_entry_dir_perm (fs : FS) (p : String) (d : Nat)
    (v : List String) (real_path m : String) (sl : Bool) (st : Stat)
    (hd : d < MAX_DEPTH) (hex : is_excluded_path p = false)
    (hres : fs.resolve p = some real_path) (hmem : real_path ∉ v)
    (hcl : fs.classify p = .ok (false, true, sl))
    (hstat : fs.statResult p = .ok st)
    (hlist : fs.listDir p = .error (.permissionError m)) :
    create_entry fs p d v
      = (some (dirPermEntry p (some st.st_mtime) (some st.st_ctime) none),
         real_path :: v) := by
  rw [create_entry_def]
  unfold createEntryStep
  simp [show ¬ d > MAX_DEPTH by omega, hd, hex, hres, hmem, hcl, hstat, hlist]

/-- The fully expanded directory branch (lines 165-196): children are
produced by the loop at `depth + 1` starting from the visited set extended
with this directory's canonical path, then sorted. -/
theorem create_entry_dir (fs : FS) (p : String) (d : Nat) (v : List String)
    (real_path : String) (sl : Bool) (st : Stat) (kids : List String)
    (hd : d < MAX_DEPTH) (hex : is_excluded_path p = false)
    (hres : fs.resolve p = some real_path) (hmem : real_path ∉ v)
    (hcl : fs.classify p = .ok (false, true, sl))
    (hstat : fs.statResult p = .ok st)
    (hlist : fs.listDir p = .ok kids) :
    create_entry fs p d v
      = (some (dirEntry p (some st.st_mtime) (some st.st_ctime) none
           (pySorted (process_children fs kids (d + 1) (real_path :: v)).1)),
         (process_children fs kids (d + 1) (real_path :: v)).2) := by
  rw [create_entry_def]
  unfold createEntryStep
  rw [scanFuel_sub d hd]
  have hpc := processChildrenF_eq_process_children fs kids (d + 1)
    (real_path :: v) (scanFuel (d + 1)) (le_refl _)
  simp [show ¬ d > MAX_DEPTH by omega, hd, hex, hres, hmem, hcl, hstat, hlist,
    hpc]

/-- The boundary directory branch: at `depth = MAX_DEPTH` the contents are
not enumerated (guard at line 169); the entry is a directory with empty
children and no `max_depth_reached` flag. -/
theorem create_entry_dir_shallow (fs : FS) (p : String) (d : Nat)
    (v : List String) (real_path : String) (sl : Bool)
    (hd : d = MAX_DEPTH) (hex : is_excluded_path p = false)
    (hres : fs.resolve p = some real_path) (hmem : real_path ∉ v)
    (hcl : fs.classify p = .ok (false, true, sl)) :
    create_entry fs p d v = (some (shallowDirEntry p), real_path :: v) := by
  rw [create_entry_def]
  unfold createEntryStep
  simp [show ¬ d > MAX_DEPTH by omega, show ¬ d < MAX_DEPTH by omega,
    hex, hres, hmem, hcl]


/-- The empty children loop. -/
theorem process_children_nil (fs : FS) (d : Nat) (v : List String) :
    process_children fs [] d v = ([], v) := rfl

/-- One iteration of the children loop (lines 179-192) at the
`create_entry` level: the head child is processed by its own
`create_entry` call, its failure or omission only determines whether an
entry is contributed, and the remaining siblings are always processed with
the threaded visited set — a child's outcome never aborts its siblings. -/
theorem process_children_cons (fs : FS) (child : String) (rest : List String)
    (d : Nat) (v : List String) :
    process_children fs (child :: rest) d v
      = ((match (create_entry fs child d v).1 with
          | none => (process_children fs rest d (create_entry fs child d v).2).1
          | some ce => markHidden child ce ::
              (process_children fs rest d (create_entry fs child d v).2).1),
         (process_children fs rest d (create_entry fs child d v).2).2) := by
  rw [process_children]
  simp only [processChildrenF,
    createEntryF_eq_create_entry fs child d v _ (le_refl _),
    processChildrenF_eq_process_children fs rest d _ _ (le_refl _)]
  cases (create_entry fs child d v).1 <;> rfl

/-- The visited set only ever grows (additions at line 129 persist across
the recursion). -/
theorem visited_mono (fs : FS) : ∀ f,
    (∀ p d v r, createEntryF fs f p d v = some r → v ⊆ r.2) ∧
    (∀ kids d v r,
      processChildrenF (createEntryF fs f) kids d v = some r → v ⊆ r.2) := by
  intro f
  induction f using Nat.strong_induction_on with
  | _ f IH =>
    have hP : ∀ p d v r, createEntryF fs f p d v = some r → v ⊆ r.2 := by
      intro p d v r h
      cases f with
      | zero => exact absurd h (by simp [createEntryF])
      | succ g =>
        unfold createEntryF createEntryStep at h
        repeat' split at h
        all_goals cases h
        all_goals try exact List.Subset.refl _
        all_goals try exact List.subset_cons_self _ _
        all_goals
          rename_i heq
          exact fun a ha =>
            (IH g (by omega)).2 _ _ _ _ heq (List.mem_cons_of_mem _ ha)
    refine ⟨hP, ?_⟩
    intro kids
    induction kids with
    | nil =>
      intro d v r h
      cases h
      exact List.Subset.refl _
    | cons child rest ihrest =>
      intro d v r h
      unfold processChildrenF at h
      split at h
      · cases h
      next centry v1 hc =>
        split at h
        · cases h
        next os v2 hr =>
          have h1 : v ⊆ v1 := hP child d v (centry, v1) hc
          have h2 : v1 ⊆ v2 := ihrest d v1 (os, v2) hr
          split at h <;> cases h <;> exact h1.trans h2


/-- Every node of an entry tree satisfies `P` of its data and children. -/
inductive EntryAll (P : EntryData → Option (List Entry) → Prop) : Entry → Prop where
  | node : ∀ d c, P d c → (∀ cs, c = some cs → ∀ e ∈ cs, EntryAll P e) →
      EntryAll P (.mk d c)

theorem EntryAll_none {P : EntryData → Option (List Entry) → Prop}
    {d : EntryData} (h : P d none) : EntryAll P (.mk d none) :=
  .node d none h (fun _ hcs => nomatch hcs)

theorem EntryAll_nil {P : EntryData → Option (List Entry) → Prop}
    {d : EntryData} (h : P d (some [])) : EntryAll P (.mk d (some [])) := by
  refine .node d (some []) h ?_
  intro cs hcs e he
  cases hcs
  cases he

theorem EntryAll.self {P : EntryData → Option (List Entry) → Prop} {e : Entry}
    (h : EntryAll P e) : P e.data e.children := by
  cases h with
  | node d c hp _ => exact hp

theorem EntryAll.child {P : EntryData → Option (List Entry) → Prop} {e : Entry}
    {cs : List Entry} {e' : Entry} (h : EntryAll P e)
    (hcs : e.children = some cs) (he : e' ∈ cs) : EntryAll P e' := by
  cases h with
  | node d c _ hch => exact hch cs hcs e' he

/-- Master invariant: a node-local property established for every entry
shape the scanner constructs holds throughout every produced tree. -/
theorem createEntryF_all (fs : FS)
    (P : EntryData → Option (List Entry) → Prop)
    (hMax : ∀ p, EntryAll P (maxDepthEntry p))
    (hCyc : ∀ p r, EntryAll P (cycleEntry p r))
    (hUnk : ∀ p m, EntryAll P (unknownEntry p m))
    (hErr : ∀ p m, EntryAll P (errorEntry p m))
    (hFile : ∀ p sz se, EntryAll P (fileEntry p sz se))
    (hPerm : ∀ p lm ct se, EntryAll P (dirPermEntry p lm ct se))
    (hOsE : ∀ p lm ct se m, EntryAll P (dirOsErrEntry p lm ct se m))
    (hShallow : ∀ p, EntryAll P (shallowDirEntry p))
    (hPlain : ∀ p sl, EntryAll P (plainEntry p sl))
    (hDir : ∀ p lm ct se cs, (∀ e ∈ cs, EntryAll P e) →
        EntryAll P (dirEntry p lm ct se (pySorted cs)))
    (hHid : ∀ e, EntryAll P e → EntryAll P (setHidden e)) :
    ∀ f, (∀ p d v e v',
        createEntryF fs f p d v = some (some e, v') → EntryAll P e) ∧
      (∀ kids d v es v',
        processChildrenF (createEntryF fs f) kids d v = some (es, v') →
        ∀ e ∈ es, EntryAll P e) := by
  intro f
  induction f using Nat.strong_induction_on with
  | _ f IH =>
    have hP : ∀ p d v e v',
        createEntryF fs f p d v = some (some e, v') → EntryAll P e := by
      intro p d v e v' h
      cases f with
      | zero => exact absurd h (by simp [createEntryF])
      | succ g =>
        unfold createEntryF createEntryStep at h
        repeat' split at h
        all_goals cases h
        all_goals first
          | exact hMax _
          | exact hCyc _ _
          | exact hUnk _ _
          | exact hErr _ _
          | exact hFile _ _ _
          | exact hPerm _ _ _ _
          | exact hOsE _ _ _ _ _
          | exact hShallow _
          | exact hPlain _ _
          | (rename_i heq
             exact hDir _ _ _ _ _ (fun e' he' =>
               (IH g (by omega)).2 _ _ _ _ _ heq e' he'))
    refine ⟨hP, ?_⟩
    intro kids
    induction kids with
    | nil =>
      intro d v es v' h e he
      cases h
      cases he
    | cons child rest ihrest =>
      intro d v es v' h e he
      unfold processChildrenF at h
      split at h
      · cases h
      next centry v1 hc =>
        split at h
        · cases h
        next os v2 hr =>
          split at h
          · cases h
            exact ihrest d v1 _ _ hr e he
          next =>
            rename_i ce hce
            cases h
            cases he with
            | head =>
              have h1 : EntryAll P hce := hP child d v hce v1 hc
              unfold markHidden
              split
              · exact hHid _ h1
              · exact h1
            | tail _ he => exact ihrest d v1 _ _ hr e he


/-- `HeightLE n e`: the tree rooted at `e` has height at most `n`; nodes
occur only at relative depths `< n`. -/
inductive HeightLE : Nat → Entry → Prop where
  | node : ∀ n d c, (∀ cs, c = some cs → ∀ e ∈ cs, HeightLE n e) →
      HeightLE (n + 1) (.mk d c)

theorem HeightLE_one_none {d : EntryData} : HeightLE 1 (.mk d none) :=
  .node 0 d none (fun _ hcs => nomatch hcs)

theorem HeightLE_one_nil {d : EntryData} : HeightLE 1 (.mk d (some [])) := by
  refine .node 0 d (some []) ?_
  intro cs hcs e he
  cases hcs
  cases he

theorem HeightLE_mono : ∀ {n m : Nat} {e : Entry},
    HeightLE n e → n ≤ m → HeightLE m e := by
  intro n m e h
  induction h generalizing m with
  | node n d c hch ih =>
    intro hnm
    obtain ⟨m', rfl⟩ : ∃ m', m = m' + 1 := ⟨m - 1, by omega⟩
    exact .node m' d c (fun cs hcs e he => ih cs hcs e he (by omega))

theorem HeightLE_setHidden {n : Nat} {e : Entry} (h : HeightLE n e) :
    HeightLE n (setHidden e) := by
  cases h with
  | node n d c hch => exact .node n _ c hch

/-- The tree produced with fuel `f` has height at most `f`: entries appear
only at depths the fuel (hence the depth bound) allows. -/
theorem createEntryF_height (fs : FS) : ∀ f,
    (∀ p d v e v',
      createEntryF fs f p d v = some (some e, v') → HeightLE f e) ∧
    (∀ kids d v es v',
      processChildrenF (createEntryF fs f) kids d v = some (es, v') →
      ∀ e ∈ es, HeightLE f e) := by
  intro f
  induction f using Nat.strong_induction_on with
  | _ f IH =>
    have hP : ∀ p d v e v',
        createEntryF fs f p d v = some (some e, v') → HeightLE f e := by
      intro p d v e v' h
      cases f with
      | zero => exact absurd h (by simp [createEntryF])
      | succ g =>
        unfold createEntryF createEntryStep at h
        repeat' split at h
        all_goals cases h
        all_goals try exact HeightLE_mono HeightLE_one_nil (by omega)
        all_goals try exact HeightLE_mono HeightLE_one_none (by omega)
        all_goals
          rename_i heq
          refine HeightLE.node g _ _ ?_
          intro cs hcs e' he'
          cases hcs
          have he'' := (List.mem_insertionSort pyLE).mp he'
          exact (IH g (by omega)).2 _ _ _ _ _ heq e' he''
    refine ⟨hP, ?_⟩
    intro kids
    induction kids with
    | nil =>
      intro d v es v' h e he
      cases h
      cases he
    | cons child rest ihrest =>
      intro d v es v' h e he
      unfold processChildrenF at h
      split at h
      · cases h
      next centry v1 hc =>
        split at h
        · cases h
        next os v2 hr =>
          split at h
          · cases h
            exact ihrest d v1 _ _ hr e he
          next =>
            rename_i ce hentry
            cases h
            cases he with
            | head =>
              have h1 : HeightLE f hentry := hP child d v hentry v1 hc
              unfold markHidden
              split
              · exact HeightLE_setHidden h1
              · exact h1
            | tail _ he => exact ihrest d v1 _ _ hr e he


/-- `createEntryF_all` specialised to the wrapper `create_entry`. -/
theorem create_entry_all (fs : FS)
    (P : EntryData → Option (List Entry) → Prop)
    (hMax : ∀ p, EntryAll P (maxDepthEntry p))
    (hCyc : ∀ p r, EntryAll P (cycleEntry p r))
    (hUnk : ∀ p m, EntryAll P (unknownEntry p m))
    (hErr : ∀ p m, EntryAll P (errorEntry p m))
    (hFile : ∀ p sz se, EntryAll P (fileEntry p sz se))
    (hPerm : ∀ p lm ct se, EntryAll P (dirPermEntry p lm ct se))
    (hOsE : ∀ p lm ct se m, EntryAll P (dirOsErrEntry p lm ct se m))
    (hShallow : ∀ p, EntryAll P (shallowDirEntry p))
    (hPlain : ∀ p sl, EntryAll P (plainEntry p sl))
    (hDir : ∀ p lm ct se cs, (∀ e ∈ cs, EntryAll P e) →
        EntryAll P (dirEntry p lm ct se (pySorted cs)))
    (hHid : ∀ e, EntryAll P e → EntryAll P (setHidden e))
    (p : String) (d : Nat) (v : List String) (e : Entry)
    (he : (create_entry fs p d v).1 = some e) : EntryAll P e := by
  apply (createEntryF_all fs P hMax hCyc hUnk hErr hFile hPerm hOsE hShallow
    hPlain hDir hHid (scanFuel d)).1 p d v e (create_entry fs p d v).2
  rw [createEntryF_eq_create_entry fs p d v _ (le_refl _), ← he]

/-- The node-local property of claim C1: a `cycle_detected` node carries no
`children` key. -/
def cycleUnexpanded (d : EntryData) (c : Option (List Entry)) : Prop :=
  d.cycle_detected = true → c = none


theorem create_entry_cycleUnexpanded (fs : FS) (p : String) (d : Nat)
    (v : List String) (e : Entry)
    (he : (create_entry fs p d v).1 = some e) :
    EntryAll cycleUnexpanded e := by
  refine create_entry_all fs cycleUnexpanded ?hMax ?hCyc ?hUnk ?hErr ?hFile
    ?hPerm ?hOsE ?hShallow ?hPlain ?hDir ?hHid p d v e he
  case hMax => exact fun p => EntryAll_nil (fun hcy => nomatch hcy)
  case hCyc => exact fun p r => EntryAll_none (fun _ => rfl)
  case hUnk => exact fun p m => EntryAll_none (fun hcy => nomatch hcy)
  case hErr => exact fun p m => EntryAll_none (fun hcy => nomatch hcy)
  case hFile => exact fun p sz se => EntryAll_none (fun hcy => nomatch hcy)
  case hPerm => exact fun p lm ct se => EntryAll_nil (fun hcy => nomatch hcy)
  case hOsE => exact fun p lm ct se m => EntryAll_nil (fun hcy => nomatch hcy)
  case hShallow => exact fun p => EntryAll_nil (fun hcy => nomatch hcy)
  case hPlain => exact fun p sl => EntryAll_none (fun hcy => nomatch hcy)
  case hDir =>
    intro p lm ct se cs hcs
    refine .node _ _ (fun hcy => nomatch hcy) ?_
    intro cs' hcs' e' he'
    cases hcs'
    exact hcs e' ((List.mem_insertionSort pyLE).mp he')
  case hHid =>
    intro e h
    cases h with
    | node dd c hp hch => exact .node _ c (fun hcy => hp hcy) hch

/-- The node-local property of claim C8: every `children` list is sorted
under the Python sort key order. -/
def childrenSorted (_d : EntryData) (c : Option (List Entry)) : Prop :=
  ∀ cs, c = some cs → List.Pairwise pyLE cs

theorem create_entry_childrenSorted (fs : FS) (p : String) (d : Nat)
    (v : List String) (e : Entry)
    (he : (create_entry fs p d v).1 = some e) :
    EntryAll childrenSorted e := by
  refine create_entry_all fs childrenSorted ?hMax ?hCyc ?hUnk ?hErr ?hFile
    ?hPerm ?hOsE ?hShallow ?hPlain ?hDir ?hHid p d v e he
  case hMax => exact fun p => EntryAll_nil (fun cs hcs => by cases hcs; exact .nil)
  case hCyc => exact fun p r => EntryAll_none (fun cs hcs => nomatch hcs)
  case hUnk => exact fun p m => EntryAll_none (fun cs hcs => nomatch hcs)
  case hErr => exact fun p m => EntryAll_none (fun cs hcs => nomatch hcs)
  case hFile => exact fun p sz se => EntryAll_none (fun cs hcs => nomatch hcs)
  case hPerm =>
    exact fun p lm ct se => EntryAll_nil (fun cs hcs => by cases hcs; exact .nil)
  case hOsE =>
    exact fun p lm ct se m =>
      EntryAll_nil (fun cs hcs => by cases hcs; exact .nil)
  case hShallow =>
    exact fun p => EntryAll_nil (fun cs hcs => by cases hcs; exact .nil)
  case hPlain => exact fun p sl => EntryAll_none (fun cs hcs => nomatch hcs)
  case hDir =>
    intro p lm ct se cs hcs
    refine .node _ _ ?_ ?_
    · intro cs' hcs'
      cases hcs'
      exact List.sorted_insertionSort pyLE cs
    · intro cs' hcs' e' he'
      cases hcs'
      exact hcs e' ((List.mem_insertionSort pyLE).mp he')
  case hHid =>
    intro e h
    cases h with
    | node dd c hp hch => exact .node _ c (fun cs hcs => hp cs hcs) hch


/-- Names of an entry's children in order, for stating concrete outputs. -/
def childNames (e : Entry) : List String :=
  (e.children.getD []).map nameD

/-- Follow first children `n` levels down. -/
def descend : Entry → Nat → Option Entry
  | e, 0 => some e
  | e, n + 1 =>
    match e.children with
    | some (c :: _) => descend c n
    | _ => none

/-- A directory `/A` containing a symlink `/A/link` back to `/A`. -/
def cycFS : FS where
  existsPath p := p = "/A"
  resolveInput p := .ok p
  resolve p := if p = "/A/link" then some "/A" else some p
  classify p := .ok (false, true, p = "/A/link")
  statResult _ := .ok ⟨0, 0, 0⟩
  listDir p := if p = "/A" then .ok ["/A/link"] else .ok []

/-- An unboundedly deep chain of directories `/d`, `/d/d`, `/d/d/d`, ... -/
def chainFS : FS where
  existsPath _ := true
  resolveInput p := .ok p
  resolve p := some p
  classify _ := .ok (false, true, false)
  statResult _ := .ok ⟨0, 0, 0⟩
  listDir p := .ok [p ++ "/d"]

/-- A filesystem in which no path exists. -/
def missFS : FS where
  existsPath _ := false
  resolveInput p := .ok p
  resolve _ := none
  classify _ := .error (.other "gone")
  statResult _ := .error (.other "gone")
  listDir _ := .error (.other "gone")

/-- `/proc` exists and is listable. -/
def procFS : FS where
  existsPath _ := true
  resolveInput p := .ok p
  resolve p := some p
  classify _ := .ok (false, true, false)
  statResult _ := .ok ⟨0, 0, 0⟩
  listDir _ := .ok []

/-- `/app` containing `node_modules` and `src` directories. -/
def exclFS : FS where
  existsPath _ := true
  resolveInput p := .ok p
  resolve p := some p
  classify _ := .ok (false, true, false)
  statResult _ := .ok ⟨0, 0, 0⟩
  listDir p := if p = "/app" then .ok ["/app/node_modules", "/app/src"] else .ok []

/-- `/s` containing files `b.txt`, `a.txt` and directories `Z`, `a`, listed
in that order. -/
def sortFS : FS where
  existsPath _ := true
  resolveInput p := .ok p
  resolve p := some p
  classify p := .ok (p = "/s/b.txt" || p = "/s/a.txt",
                     p = "/s" || p = "/s/Z" || p = "/s/a", false)
  statResult _ := .ok ⟨0, 0, 0⟩
  listDir p :=
    if p = "/s" then .ok ["/s/b.txt", "/s/a.txt", "/s/Z", "/s/a"] else .ok []

/-- `/p` with a child `locked` that raises `PermissionError` on listing and
a sibling `ok` containing a file. -/
def permFS : FS where
  existsPath _ := true
  resolveInput p := .ok p
  resolve p := some p
  classify p := .ok (p = "/p/ok/f.txt", p ≠ "/p/ok/f.txt", false)
  statResult _ := .ok ⟨7, 0, 0⟩
  listDir p :=
    if p = "/p" then .ok ["/p/locked", "/p/ok"]
    else if p = "/p/locked" then .error (.permissionError "denied")
    else if p = "/p/ok" then .ok ["/p/ok/f.txt"]
    else .ok []

/-- `/t` with sibling symlinks `link1`, `link2` to the same directory
`/shared` (no cycle on disk), a file `f.txt`, and a symlink `link3` to that
file. -/
def twinFS : FS where
  existsPath _ := true
  resolveInput p := .ok p
  resolve p :=
    if p = "/t/link1" || p = "/t/link2" then some "/shared"
    else if p = "/t/link3" then some "/t/f.txt"
    else some p
  classify p :=
    .ok (p = "/t/f.txt" || p = "/t/link3",
         p = "/t" || p = "/t/link1" || p = "/t/link2",
         p = "/t/link1" || p = "/t/link2" || p = "/t/link3")
  statResult _ := .ok ⟨3, 0, 0⟩
  listDir p :=
    if p = "/t" then .ok ["/t/link1", "/t/link2", "/t/f.txt", "/t/link3"]
    else .ok []

/-- `/x` with a child whose classification raises a non-OSError exception,
next to a healthy file sibling. -/
def throwFS : FS where
  existsPath _ := true
  resolveInput p := .ok p
  resolve p := some p
  classify p :=
    if p = "/x/bad" then .error (.other "boom")
    else .ok (p = "/x/good", p = "/x", false)
  statResult _ := .ok ⟨1, 0, 0⟩
  listDir p := if p = "/x" then .ok ["/x/bad", "/x/good"] else .ok []


/-- Whenever the canonical-path check passes, the canonical path is added
to the visited set (line 129) — for files exactly as for directories, since
the addition precedes type classification. -/
theorem createEntryF_records (fs : FS) : ∀ f p d v real_path r,
    d ≤ MAX_DEPTH → is_excluded_path p = false →
    fs.resolve p = some real_path → real_path ∉ v →
    createEntryF fs f p d v = some r → real_path ∈ r.2 := by
  intro f p d v real_path r hd hex hres hmem h
  cases f with
  | zero => exact absurd h (by simp [createEntryF])
  | succ g =>
    unfold createEntryF createEntryStep at h
    repeat' split at h
    all_goals cases h
    all_goals first
      | omega
      | (simp_all [List.mem_cons_self]; done)
      | (rename_i heq2
         have hsub := (visited_mono fs g).2 _ _ _ _ heq2
         apply hsub
         simp_all [List.mem_cons_self])

/-- `createEntryF_records` at the wrapper level. -/
theorem create_entry_records (fs : FS) (p : String) (d : Nat)
    (v : List String) (real_path : String) (hd : d ≤ MAX_DEPTH)
    (hex : is_excluded_path p = false) (hres : fs.resolve p = some real_path)
    (hmem : real_path ∉ v) : real_path ∈ (create_entry fs p d v).2 :=
  createEntryF_records fs (scanFuel d) p d v real_path _ hd hex hres hmem
    (createEntryF_eq_create_entry fs p d v _ (le_refl _))


/-- Claim C1: a path whose canonical (symlink-resolved) form is already in
the current scan's visited set is not re-entered: the emitted entry has
kind `symlink`, carries `cycle_detected` and the canonical `target`, has no
`children` key, and the visited set is untouched; moreover no entry with
`cycle_detected` set anywhere in a produced tree is ever expanded (its
`children` key is absent). -/
theorem claim_C1 :
    (∀ (fs : FS) (p : String) (d : Nat) (v : List String)
        (real_path : String),
      d ≤ MAX_DEPTH → is_excluded_path p = false →
      fs.resolve p = some real_path → real_path ∈ v →
        create_entry fs p d v = (some (cycleEntry p real_path), v) ∧
        (cycleEntry p real_path).data.type = some "symlink" ∧
        (cycleEntry p real_path).data.cycle_detected = true ∧
        (cycleEntry p real_path).data.target = some real_path ∧
        (cycleEntry p real_path).children = none) ∧
    (∀ (fs : FS) (p : String) (d : Nat) (v : List String) (e : Entry),
      (create_entry fs p d v).1 = some e → EntryAll cycleUnexpanded e) := by
  constructor
  · intro fs p d v real_path hd hex hres hmem
    exact ⟨create_entry_cycle fs p d v real_path hd hex hres hmem,
      rfl, rfl, rfl, rfl⟩
  · exact fun fs p d v e he => create_entry_cycleUnexpanded fs p d v e he

theorem claim_C1_witness :
    (create_entry cycFS "/A/link" 1 ["/A"]
        = (some (cycleEntry "/A/link" "/A"), ["/A"])) ∧
    EntryAll cycleUnexpanded
      (dirEntry "/A" (some 0) (some 0) none [cycleEntry "/A/link" "/A"]) := by
  constructor
  · exact (claim_C1.1 cycFS "/A/link" 1 ["/A"] "/A" (by decide) (by decide)
      (by decide) (by decide)).1
  · exact claim_C1.2 cycFS "/A" 0 []
      (dirEntry "/A" (some 0) (some 0) none [cycleEntry "/A/link" "/A"]) rfl

/-- Claim C2: the scan terminates on every filesystem: any fuel of at
least `scanFuel depth` (a bound fixed by `MAX_DEPTH`) produces the same
`some` result, so the visited-set check and the depth bound prevent
unbounded recursion; on the concrete cyclic filesystem `cycFS` (directory
`/A` containing a symlink back to `/A`) the scan returns, reporting the
offending symlink as a cycle rather than following it. -/
theorem claim_C2 :
    (∀ (fs : FS) (f : Nat) (p : String) (d : Nat) (v : List String),
      scanFuel d ≤ f →
        createEntryF fs f p d v = some (create_entry fs p d v)) ∧
    scan_directory cycFS "/A"
      = dirEntry "/A" (some 0) (some 0) none [cycleEntry "/A/link" "/A"] :=
  ⟨fun fs f p d v h => createEntryF_eq_create_entry fs p d v f h, rfl⟩

theorem claim_C2_witness :
    createEntryF cycFS 17 "/A" 0 [] = some (create_entry cycFS "/A" 0 []) :=
  claim_C2.1 cycFS 17 "/A" 0 [] (by decide)

/-- Claim C3: an exception raised while processing a single path (here,
the non-`OSError` failure modes of the primitives) is caught at that
path's own recursion frame and converted into an `error`-kind entry or an
omission; one child's outcome never aborts its siblings (the children loop
is a plain fold over the listing), and the concrete scan of a directory
with one throwing child still returns both children. -/
theorem claim_C3 :
    (∀ (fs : FS) (p : String) (d : Nat) (v : List String)
        (real_path m : String),
      d ≤ MAX_DEPTH → is_excluded_path p = false →
      fs.resolve p = some real_path → real_path ∉ v →
      fs.classify p = .error (.other m) →
        create_entry fs p d v = (some (errorEntry p m), real_path :: v)) ∧
    (∀ (fs : FS) (child : String) (rest : List String) (d : Nat)
        (v : List String),
      process_children fs (child :: rest) d v
        = ((match (create_entry fs child d v).1 with
            | none =>
                (process_children fs rest d (create_entry fs child d v).2).1
            | some ce => markHidden child ce ::
                (process_children fs rest d (create_entry fs child d v).2).1),
           (process_children fs rest d (create_entry fs child d v).2).2)) ∧
    scan_directory throwFS "/x"
      = dirEntry "/x" (some 0) (some 0) none
          [errorEntry "/x/bad" "boom", fileEntry "/x/good" 1 none] :=
  ⟨fun fs p d v real_path m hd hex hres hmem hcl =>
      create_entry_classify_other fs p d v real_path m hd hex hres hmem hcl,
   fun fs child rest d v => process_children_cons fs child rest d v,
   rfl⟩

theorem claim_C3_witness :
    create_entry throwFS "/x/bad" 1 ["/x"]
      = (some (errorEntry "/x/bad" "boom"), ["/x/bad", "/x"]) :=
  claim_C3.1 throwFS "/x/bad" 1 ["/x"] "/x/bad" "boom" (by decide) (by decide)
    (by decide) (by decide) (by rfl)


/-- Counterexample to claim C4 as stated: scanning the deep chain
`chainFS`, the entry at the depth boundary (`MAX_DEPTH`) exists as a
directory with `children` present and empty, but its `max_depth_reached`
flag is `false` — not `true` as the claim asserts (the `depth > MAX_DEPTH`
branch that sets the flag is unreachable, since children are only
enumerated when `depth < MAX_DEPTH`); nothing exists beyond that depth. -/
theorem claim_C4_counterexample :
    (descend (scan_directory chainFS "/d") MAX_DEPTH).map
        (fun e => (e.data.max_depth_reached, e.children.isSome,
                   (e.children.getD []).length))
      = some (false, true, 0) ∧
    descend (scan_directory chainFS "/d") (MAX_DEPTH + 1) = none :=
  ⟨rfl, rfl⟩

/-- Claim C4, amended: for a chain of nested directories deeper than
`MAX_DEPTH`, no entry beyond depth `MAX_DEPTH` appears anywhere in the
output (every scan tree has height at most `MAX_DEPTH + 1`), and the entry
at the boundary depth is emitted as a directory with `children: []` — but
without the `maxDepthReached` flag, which the traversal never sets. -/
theorem claim_C4_amended :
    (∀ (fs : FS) (p : String) (v : List String) (e : Entry),
      (create_entry fs p 0 v).1 = some e → HeightLE (MAX_DEPTH + 1) e) ∧
    (∀ (fs : FS) (p : String) (v : List String) (real_path : String)
        (sl : Bool),
      is_excluded_path p = false → fs.resolve p = some real_path →
      real_path ∉ v → fs.classify p = .ok (false, true, sl) →
        create_entry fs p MAX_DEPTH v
          = (some (shallowDirEntry p), real_path :: v) ∧
        (shallowDirEntry p).children = some [] ∧
        (shallowDirEntry p).data.max_depth_reached = false) := by
  constructor
  · intro fs p v e he
    exact (createEntryF_height fs (scanFuel 0)).1 p 0 v e
      (create_entry fs p 0 v).2
      (by rw [createEntryF_eq_create_entry fs p 0 v _ (le_refl _), ← he])
  · intro fs p v real_path sl hex hres hmem hcl
    exact ⟨create_entry_dir_shallow fs p MAX_DEPTH v real_path sl rfl hex
      hres hmem hcl, rfl, rfl⟩

theorem claim_C4_witness :
    HeightLE (MAX_DEPTH + 1) (dirEntry "/proc" (some 0) (some 0) none []) ∧
    create_entry chainFS "/d/d/d/d/d/d" MAX_DEPTH []
      = (some (shallowDirEntry "/d/d/d/d/d/d"), ["/d/d/d/d/d/d"]) := by
  constructor
  · exact claim_C4_amended.1 procFS "/proc" []
      (dirEntry "/proc" (some 0) (some 0) none []) rfl
  · exact (claim_C4_amended.2 chainFS "/d/d/d/d/d/d" [] "/d/d/d/d/d/d" false
      (by decide) (by decide) (by decide) (by rfl)).1

/-- Counterexample to claim C5 as stated: the not-found document emitted
for a non-existent root does carry a `children` field (an empty list) and a
`type` (kind) field (`"directory"`), contradicting the claim that both are
absent. -/
theorem claim_C5_counterexample :
    (scan_directory missFS "/missing").children = some [] ∧
    (scan_directory missFS "/missing").data.type = some "directory" :=
  ⟨rfl, rfl⟩

/-- Claim C5, amended: for every input whose resolved form does not exist,
the scan returns, without raising, a single fatal document carrying an
error string, `status: "not_found"`, and the context fields `name`,
`path` and `parent_exists` — but also `type: "directory"` and
`children: []`, which the claim asserted absent. -/
theorem claim_C5_amended :
    ∀ (fs : FS) (input resolved : String),
      fs.resolveInput (effectiveInput fs input) = .ok resolved →
      fs.existsPath resolved = false →
      scan_directory fs input
        = .mk { name := some (pathName resolved), path := some resolved,
                type := some "directory",
                error := some ("Directory not found: " ++ resolved),
                parent_exists := some (fs.existsPath (parentPath resolved)),
                status := some "not_found" } (some []) := by
  intro fs input resolved hres hex
  simp only [scan_directory]
  rw [hres]
  dsimp only
  rw [hex]
  rfl

theorem claim_C5_witness :
    scan_directory missFS "/missing"
      = .mk { name := some "missing", path := some "/missing",
              type := some "directory",
              error := some "Directory not found: /missing",
              parent_exists := some false,
              status := some "not_found" } (some []) :=
  claim_C5_amended missFS "/missing" "/missing" rfl rfl

/-- Claim C6, evaluated at the failing inputs: `/proc` and `/tmp` are
listed in `EXCLUDED_DIRS`, yet `is_excluded_path` returns `false` for both
— an entry containing the separator can never equal a single path segment
— so scanning `/proc` proceeds into the tree and returns an ordinary
directory entry instead of the degraded `excluded` document. -/
theorem claim_C6_eval :
    ("/proc" ∈ EXCLUDED_DIRS ∧ "/tmp" ∈ EXCLUDED_DIRS) ∧
    is_excluded_path "/proc" = false ∧
    is_excluded_path "/tmp" = false ∧
    (scan_directory procFS "/proc").data.excluded = false ∧
    (scan_directory procFS "/proc").data.status = none ∧
    (scan_directory procFS "/proc").children = some [] :=
  ⟨⟨by decide, by decide⟩, by decide, by decide, rfl, rfl, rfl⟩


/-- Claim C7: exclusion matches whole path segments, not substrings — a
directory literally named `systmp` is not excluded, any path with a
segment exactly `node_modules` is excluded, and an excluded non-root path
contributes no entry at all to its parent (the scan of `/app` lists only
`src`). -/
theorem claim_C7 :
    is_excluded_path "/systmp" = false ∧
    is_excluded_path "/home/user/systmp" = false ∧
    (∀ p : String, "node_modules" ∈ pySplit p → is_excluded_path p = true) ∧
    (∀ (fs : FS) (p : String) (d : Nat) (v : List String),
      d ≤ MAX_DEPTH → is_excluded_path p = true →
        create_entry fs p d v = (none, v)) ∧
    childNames (scan_directory exclFS "/app") = ["src"] := by
  refine ⟨by decide, by decide, ?_, ?_, by decide⟩
  · intro p hp
    unfold is_excluded_path
    apply List.any_eq_true.mpr
    refine ⟨"node_modules", by decide, ?_⟩
    exact List.any_eq_true.mpr ⟨"node_modules", hp, by decide⟩
  · exact fun fs p d v hd hex => create_entry_excluded fs p d v hd hex

theorem claim_C7_witness :
    is_excluded_path "/repo/node_modules" = true ∧
    create_entry exclFS "/app/node_modules" 1 ["/app"] = (none, ["/app"]) := by
  constructor
  · exact claim_C7.2.2.1 "/repo/node_modules" (by decide)
  · exact claim_C7.2.2.2.1 exclFS "/app/node_modules" 1 ["/app"] (by decide)
      (by decide)

/-- Counterexample to claim C8 as stated: on the directory whose children
are `b.txt`, `a.txt`, `Z` (dir), `a` (dir), the scan's children sequence is
`["Z", "a", "a.txt", "b.txt"]` — directories first, then code-point
lexicographic order, in which uppercase `Z` precedes lowercase `a` — not
`["a", "Z", "a.txt", "b.txt"]` as the claim's example asserts. -/
theorem claim_C8_counterexample :
    childNames (scan_directory sortFS "/s") = ["Z", "a", "a.txt", "b.txt"] ∧
    childNames (scan_directory sortFS "/s") ≠ ["a", "Z", "a.txt", "b.txt"] :=
  ⟨by decide, by decide⟩

/-- Claim C8, amended: every directory entry's children are sorted in the
stable total preorder `pyLE` — all `directory`-kind entries before other
kinds, and by name (code-point lexicographic, so `Z` before `a`) within
each group; the example input yields `["Z", "a", "a.txt", "b.txt"]`. -/
theorem claim_C8_amended :
    (∀ (fs : FS) (p : String) (d : Nat) (v : List String) (e : Entry),
      (create_entry fs p d v).1 = some e → EntryAll childrenSorted e) ∧
    childNames (scan_directory sortFS "/s") = ["Z", "a", "a.txt", "b.txt"] ∧
    ((scan_directory sortFS "/s").children.getD []).map
        (fun e => e.data.type.getD "")
      = ["directory", "directory", "file", "file"] :=
  ⟨fun fs p d v e he => create_entry_childrenSorted fs p d v e he,
   by decide, by decide⟩

theorem claim_C8_witness :
    EntryAll childrenSorted (dirEntry "/s/Z" (some 0) (some 0) none []) :=
  claim_C8_amended.1 sortFS "/s/Z" 1 ["/s"]
    (dirEntry "/s/Z" (some 0) (some 0) none []) rfl

/-- Claim C9: a child directory that raises permission-denied when listed
still yields an entry with `permission_error: true` and empty children,
and its siblings are unaffected — in the concrete scan of `/p`, `locked`
is annotated and `ok` is still fully expanded. -/
theorem claim_C9 :
    (∀ (fs : FS) (p : String) (d : Nat) (v : List String)
        (real_path m : String) (sl : Bool) (st : Stat),
      d < MAX_DEPTH → is_excluded_path p = false →
      fs.resolve p = some real_path → real_path ∉ v →
      fs.classify p = .ok (false, true, sl) →
      fs.statResult p = .ok st →
      fs.listDir p = .error (.permissionError m) →
        create_entry fs p d v
          = (some (dirPermEntry p (some st.st_mtime) (some st.st_ctime) none),
             real_path :: v) ∧
        (dirPermEntry p (some st.st_mtime) (some st.st_ctime) none).children
          = some [] ∧
        (dirPermEntry p (some st.st_mtime) (some st.st_ctime)
            none).data.permission_error = true) ∧
    scan_directory permFS "/p"
      = dirEntry "/p" (some 0) (some 0) none
          [dirPermEntry "/p/locked" (some 0) (some 0) none,
           dirEntry "/p/ok" (some 0) (some 0) none
             [fileEntry "/p/ok/f.txt" 7 none]] := by
  constructor
  · intro fs p d v real_path m sl st hd hex hres hmem hcl hstat hlist
    exact ⟨create_entry_dir_perm fs p d v real_path m sl st hd hex hres hmem
      hcl hstat hlist, rfl, rfl⟩
  · rfl

theorem claim_C9_witness :
    create_entry permFS "/p/locked" 1 ["/p"]
      = (some (dirPermEntry "/p/locked" (some 0) (some 0) none),
         ["/p/locked", "/p"]) :=
  (claim_C9.1 permFS "/p/locked" 1 ["/p"] "/p/locked" "denied" false
    ⟨7, 0, 0⟩ (by decide) (by decide) (by decide) (by decide) (by rfl)
    (by rfl) (by rfl)).1

/-- Claim C10: the visited set records the canonical form of every visited
path — files as well as directories, the addition preceding type
classification — so each canonical path is expanded at most once per scan;
a second path resolving to an already-recorded target (two sibling
symlinks to one directory, or a symlink to an already-visited file) is
emitted as a `symlink` entry with `cycle_detected: true` and not expanded,
as the concrete scan of `/t` shows. -/
theorem claim_C10 :
    (∀ (fs : FS) (p : String) (d : Nat) (v : List String)
        (real_path : String),
      d ≤ MAX_DEPTH → is_excluded_path p = false →
      fs.resolve p = some real_path → real_path ∉ v →
        real_path ∈ (create_entry fs p d v).2) ∧
    (∀ (fs : FS) (p : String) (d : Nat) (v : List String)
        (real_path : String),
      d ≤ MAX_DEPTH → is_excluded_path p = false →
      fs.resolve p = some real_path → real_path ∈ v →
        create_entry fs p d v = (some (cycleEntry p real_path), v) ∧
        (cycleEntry p real_path).children = none) ∧
    scan_directory twinFS "/t"
      = dirEntry "/t" (some 0) (some 0) none
          [dirEntry "/t/link1" (some 0) (some 0) none [],
           fileEntry "/t/f.txt" 3 none,
           cycleEntry "/t/link2" "/shared",
           cycleEntry "/t/link3" "/t/f.txt"] := by
  refine ⟨?_, ?_, rfl⟩
  · exact fun fs p d v real_path hd hex hres hmem =>
      create_entry_records fs p d v real_path hd hex hres hmem
  · exact fun fs p d v real_path hd hex hres hmem =>
      ⟨create_entry_cycle fs p d v real_path hd hex hres hmem, rfl⟩

theorem claim_C10_witness :
    "/t/f.txt" ∈ (create_entry twinFS "/t/f.txt" 1 ["/shared", "/t"]).2 ∧
    create_entry twinFS "/t/link2" 1 ["/shared", "/t"]
      = (some (cycleEntry "/t/link2" "/shared"), ["/shared", "/t"]) := by
  constructor
  · exact claim_C10.1 twinFS "/t/f.txt" 1 ["/shared", "/t"] "/t/f.txt"
      (by decide) (by decide) (by decide) (by decide)
  · exact (claim_C10.2.1 twinFS "/t/link2" 1 ["/shared", "/t"] "/shared"
      (by decide) (by decide) (by decide) (by decide)).1

end FileScanner
